import Mathlib

/-!
Verification development for the KnowWhy decision-intelligence pipeline.

Shallow embedding of the pipeline core:
- window segmentation and decision detection (DecisionDetectionAgent),
- brief synthesis with validate/repair (RationaleGenerationAgent),
- context extraction (ContextExtractionAgent),
- retrieval merge/rank (AdvancedRetrievalService.combineAndFilterResults, retrieve),
- brief schema validation and status helpers (DecisionSchema, DecisionBriefUtils).

Conventions of the embedding:
- JavaScript numbers are modelled as rationals (scores and confidences);
  Date values as integers (epoch-style timestamps).
- Nondeterministic values (crypto.randomUUID, Date.now) are modelled as
  fixed placeholders; no claim depends on them.
- A JSON value that may be absent is an Option; the JavaScript `x || d`
  idiom is modelled by the js*Or helpers below (empty string and 0 are
  falsy, arrays are always truthy).
- Language-model and embedding-search collaborators return Except values:
  an error models a thrown transport exception; replies are modelled at
  the parse-outcome level (parsed structure versus unparseable text),
  since the source's only use of the raw text is JSON.parse plus regex
  fallbacks, whose match outcomes are carried explicitly.
-/

namespace KnowWhy

/-! ## JavaScript truthiness helpers -/

/-- Model of the JavaScript `s || d` default for an optional string field:
undefined and the empty string are falsy. -/
def jsStrOr (v : Option String) (d : String) : String :=
  match v with
  | none => d
  | some s => if s = "" then d else s

/-- Model of the JavaScript `q || d` default for an optional numeric field:
undefined and 0 are falsy. -/
def jsNumOr (v : Option ℚ) (d : ℚ) : ℚ :=
  match v with
  | none => d
  | some q => if q = 0 then d else q

theorem jsStrOr_ne_empty (v : Option String) (d : String) (hd : d ≠ "") :
    jsStrOr v d ≠ "" := by
  cases v with
  | none => exact hd
  | some s =>
    by_cases hs : s = ""
    · simp [jsStrOr, hs]; exact hd
    · simp [jsStrOr, hs]

theorem jsStrOr_some_ne_empty (s d : String) (hs : s ≠ "") :
    jsStrOr (some s) d ≠ "" := by
  simp [jsStrOr, hs]

/-! ## Stable sort

JavaScript's Array.prototype.sort is stable (ES2019); the source sorts with
numeric comparators only. We model it as a stable insertion sort
parameterised by the Bool relation `strict x y` meaning "x must stay
strictly before y" (the comparator returning a negative number on (x, y)).
-/

/-- Insert an element into a list, after every element that must stay
strictly before it (stable insertion). -/
def insertStable (strict : α → α → Bool) (a : α) : List α → List α
  | [] => [a]
  | b :: bs => if strict b a then b :: insertStable strict a bs else a :: b :: bs

/-- Stable sort by the strict-before relation, as JavaScript's stable
Array.prototype.sort with a strict comparator. -/
def sortStable (strict : α → α → Bool) (l : List α) : List α :=
  l.foldr (insertStable strict) []

theorem mem_insertStable {strict : α → α → Bool} {a x : α} {l : List α} :
    x ∈ insertStable strict a l ↔ x = a ∨ x ∈ l := by
  induction l with
  | nil => simp [insertStable]
  | cons b bs ih =>
    cases hsb : strict b a with
    | true =>
      simp [insertStable, hsb, ih]
      tauto
    | false =>
      simp [insertStable, hsb]

theorem perm_insertStable (strict : α → α → Bool) (a : α) (l : List α) :
    List.Perm (insertStable strict a l) (a :: l) := by
  induction l with
  | nil => simp [insertStable]
  | cons b bs ih =>
    cases hsb : strict b a with
    | true =>
      simp only [insertStable, hsb, if_true]
      exact (ih.cons b).trans (List.Perm.swap a b bs)
    | false =>
      simp [insertStable, hsb]

theorem perm_sortStable (strict : α → α → Bool) (l : List α) :
    List.Perm (sortStable strict l) l := by
  induction l with
  | nil => simp [sortStable]
  | cons x xs ih =>
    have h1 : List.Perm (insertStable strict x (sortStable strict xs)) (x :: sortStable strict xs) :=
      perm_insertStable strict x (sortStable strict xs)
    exact h1.trans (ih.cons x)

theorem pairwise_insertStable {strict : α → α → Bool}
    (hasym : ∀ x y, strict x y = true → strict y x = false)
    (htot : ∀ x y z, strict x z = true → strict x y = true ∨ strict y z = true)
    {a : α} {l : List α} (hl : l.Pairwise (fun x y => strict y x = false)) :
    (insertStable strict a l).Pairwise (fun x y => strict y x = false) := by
  induction l with
  | nil => simp [insertStable]
  | cons b bs ih =>
    rcases List.pairwise_cons.mp hl with ⟨hb, hbs⟩
    cases hsb : strict b a with
    | true =>
      simp only [insertStable, hsb, if_true]
      refine List.pairwise_cons.mpr ⟨?_, ih hbs⟩
      intro y hy
      rcases mem_insertStable.mp hy with rfl | hy2
      · exact hasym b y hsb
      · exact hb y hy2
    | false =>
      simp only [insertStable, hsb, if_false]
      refine List.pairwise_cons.mpr ⟨?_, hl⟩
      intro y hy
      rcases List.mem_cons.mp hy with rfl | hy2
      · exact hsb
      · cases hya : strict y a with
        | false => rfl
        | true =>
          rcases htot y b a hya with h1 | h2
          · rw [hb y hy2] at h1; cases h1
          · rw [hsb] at h2; cases h2

theorem pairwise_sortStable (strict : α → α → Bool)
    (hasym : ∀ x y, strict x y = true → strict y x = false)
    (htot : ∀ x y z, strict x z = true → strict x y = true ∨ strict y z = true)
    (l : List α) :
    (sortStable strict l).Pairwise (fun x y => strict y x = false) := by
  induction l with
  | nil => simp [sortStable]
  | cons x xs ih => exact pairwise_insertStable hasym htot ih

/-! ## Chunking

The segmenter's loop `for (i = 0; i < n; i += W) slice(i, i + W)` is a
left-to-right chunking. It is modelled with fuel equal to the input length;
for a positive window size the fuel is never exhausted (a window size of 0
would loop forever in the source, so no claim is stated there).
-/

/-- Fuel-bounded chunking into consecutive slices of at most W elements. -/
def chunkAux (W : ℕ) : ℕ → List α → List (List α)
  | 0, _ => []
  | _ + 1, [] => []
  | fuel + 1, x :: xs => (x :: xs).take W :: chunkAux W fuel ((x :: xs).drop W)

/-- Chunk a list into consecutive slices of at most W elements
(the segmenter's slicing loop). -/
def chunkList (W : ℕ) (l : List α) : List (List α) :=
  chunkAux W l.length l

theorem chunkAux_join {W : ℕ} (hW : 0 < W) :
    ∀ (fuel : ℕ) (l : List α), l.length ≤ fuel → (chunkAux W fuel l).flatten = l := by
  intro fuel
  induction fuel with
  | zero =>
    intro l hl
    have : l = [] := List.eq_nil_of_length_eq_zero (Nat.le_zero.mp hl)
    subst this
    simp [chunkAux]
  | succ n ih =>
    intro l hl
    cases l with
    | nil => simp [chunkAux]
    | cons x xs =>
      have hdrop : ((x :: xs).drop W).length ≤ n := by
        rw [List.length_drop]
        have hx : (x :: xs).length ≤ n + 1 := hl
        omega
      simp only [chunkAux, List.flatten_cons]
      rw [ih _ hdrop, List.take_append_drop]

theorem chunkAux_mem {W : ℕ} (hW : 0 < W) :
    ∀ (fuel : ℕ) (l : List α) (c : List α), c ∈ chunkAux W fuel l →
      c ≠ [] ∧ c.length ≤ W := by
  intro fuel
  induction fuel with
  | zero => intro l c hc; simp [chunkAux] at hc
  | succ n ih =>
    intro l c hc
    cases l with
    | nil => simp [chunkAux] at hc
    | cons x xs =>
      simp only [chunkAux, List.mem_cons] at hc
      rcases hc with rfl | hc2
      · constructor
        · intro h
          have : W ≤ 0 := by
            have := congrArg List.length h
            simp [List.length_take] at this
            omega
          omega
        · simp only [List.length_take]
          exact Nat.min_le_left W (x :: xs).length
      · exact ih _ _ hc2

theorem chunkList_join {W : ℕ} (hW : 0 < W) (l : List α) :
    (chunkList W l).flatten = l :=
  chunkAux_join hW l.length l (Nat.le_refl _)

theorem chunkList_mem {W : ℕ} (hW : 0 < W) (l : List α) (c : List α)
    (hc : c ∈ chunkList W l) : c ≠ [] ∧ c.length ≤ W :=
  chunkAux_mem hW l.length l c hc

/-! ## Data model: conversation messages and sliding windows -/

/-- ConversationEvent (models/ConversationEvent): the fields the detection
pipeline reads. Timestamps are integers. -/
structure ConversationEvent where
  id : String
  author : String
  content : String
  timestamp : ℤ
deriving Repr, DecidableEq

/-- SlidingWindow (DecisionDetectionAgent): one analysis window. -/
structure SlidingWindow where
  id : String
  messages : List ConversationEvent
  windowStart : ℤ
  windowEnd : ℤ
  context : String
deriving Repr, DecidableEq

/-- DecisionDetectionAgent.buildWindowContext: messages formatted
"[timestamp] author: content" joined by newlines (the ISO date rendering is
modelled by the integer timestamp's decimal rendering). -/
def buildWindowContext (messages : List ConversationEvent) : String :=
  String.intercalate "\n"
    (messages.map fun m =>
      "[" ++ toString m.timestamp ++ "] " ++ m.author ++ ": " ++ m.content)

/-- Comparator of createSlidingWindows'
`sort((a, b) => a.timestamp.getTime() - b.timestamp.getTime())`:
a stays strictly before b when its timestamp is smaller. -/
def tsLt (a b : ConversationEvent) : Bool :=
  decide (a.timestamp < b.timestamp)

/-- The window record built from the i-th chunk of the sorted messages
(the chunk starts at message index i*W, giving the source's window id). -/
def mkWindow (W : ℕ) (p : ℕ × List ConversationEvent) : SlidingWindow :=
  { id := "window_" ++ toString (p.1 * W) ++ "_" ++ toString (p.1 * W + W)
    messages := p.2
    windowStart := ((p.2.head?).map ConversationEvent.timestamp).getD 0
    windowEnd := ((p.2.getLast?).map ConversationEvent.timestamp).getD 0
    context := buildWindowContext p.2 }

/-- DecisionDetectionAgent.createSlidingWindows: sort messages by ascending
timestamp (stable), then cut consecutive chunks of at most W messages. -/
def createSlidingWindows (W : ℕ) (conversation : List ConversationEvent) :
    List SlidingWindow :=
  let sortedMessages := sortStable tsLt conversation
  (chunkList W sortedMessages).enum.map (mkWindow W)

/-! ## Decision detection (DecisionDetectionAgent) -/

/-- DecisionAnalysis: the classifier's per-window analysis record. -/
structure DecisionAnalysis where
  isDecision : Bool
  summary : String
  confidence : ℚ
  reasoning : String
  decisionSignals : List String
  context : String
deriving Repr, DecidableEq

/-- DecisionCandidate (models/DecisionCandidate): the fields the claims
read. The source also sets id (crypto.randomUUID, modelled as ""),
agentVersion "v1", createdAt/updatedAt and userId, which no claim reads. -/
structure DecisionCandidate where
  id : String
  conversationId : String
  isDecision : Bool
  summary : String
  confidence : ℚ
deriving Repr, DecidableEq

/-- JSON branch of DecisionDetectionAgent.parseAnalysisResponse: the parsed
object's fields, each possibly absent. -/
structure AnalysisJsonFields where
  isDecision : Option Bool
  summary : Option String
  confidence : Option ℚ
  reasoning : Option String
  decisionSignals : Option (List String)
  context : Option String
deriving Repr, DecidableEq

/-- Text branch of parseAnalysisResponse: outcomes of the source's regex
probes over the non-JSON reply text. mentionsTrueYesOrDecision is whether
the lowercased reply contains "true", "yes" or "decision";
confidenceMatch is parseFloat of the first `confidence[:\s]+(\d+\.?\d*)`
group when it matches (hence a nonnegative number); summaryMatch is the
trimmed first `summary[:\s]+(.+)` group when it matches. -/
structure TextReplyFacts where
  mentionsTrueYesOrDecision : Bool
  confidenceMatch : Option ℚ
  summaryMatch : Option String
deriving Repr, DecidableEq

/-- A classifier reply, at the parse-outcome level: either JSON.parse
succeeds with these fields, or it throws and the regex fallback runs. -/
inductive ClassifierReply
  | json (fields : AnalysisJsonFields)
  | text (facts : TextReplyFacts)
deriving Repr, DecidableEq

/-- DecisionDetectionAgent.parseAnalysisResponse. JSON branch:
Boolean(parsed.isDecision), String(parsed.summary || ''),
Number(parsed.confidence || 0), arrays default to []. Text branch: the
regex fallback with confidence defaulting to 0.5 and summary to
"Decision detected". Neither branch clamps the confidence. -/
def parseAnalysisResponse : ClassifierReply → DecisionAnalysis
  | .json f =>
    { isDecision := f.isDecision.getD false
      summary := jsStrOr f.summary ""
      confidence := jsNumOr f.confidence 0
      reasoning := jsStrOr f.reasoning ""
      decisionSignals := f.decisionSignals.getD []
      context := jsStrOr f.context "" }
  | .text t =>
    { isDecision := t.mentionsTrueYesOrDecision
      summary := t.summaryMatch.getD "Decision detected"
      confidence := t.confidenceMatch.getD (mkRat 1 2)
      reasoning := "Parsed from text response"
      decisionSignals := []
      context := "" }

/-- DecisionDetectionAgent.generateDecisionKey: lowercase, strip every
character outside a-z and 0-9, keep the first 50 characters (lowercasing is
per character, as toLowerCase on the ASCII range). -/
def generateDecisionKey (summary : String) : String :=
  String.mk (((summary.toList.map Char.toLower).filter fun c => c.isLower || c.isDigit).take 50)

/-- Configuration of the detection agent (the fields the detection loop
reads; model name, dedup window, retry count and repair flag feed only the
collaborator calls). -/
structure DecisionDetectionConfig where
  confidenceThreshold : ℚ
  slidingWindowSize : ℕ
deriving Repr, DecidableEq

/-- The acceptance test of the detection loop:
`analysis.isDecision && analysis.confidence >= this.config.confidenceThreshold`. -/
def accepts (cfg : DecisionDetectionConfig) (analysis : DecisionAnalysis) : Bool :=
  analysis.isDecision && decide (cfg.confidenceThreshold ≤ analysis.confidence)

/-- DecisionDetectionAgent.createDecisionCandidate: candidate built from an
accepted analysis; conversationId is the window's first message id
(`window.messages[0].id`), the random id is the fixed placeholder "". -/
def createDecisionCandidate (analysis : DecisionAnalysis) (window : SlidingWindow) :
    DecisionCandidate :=
  { id := ""
    conversationId := ((window.messages.head?).map ConversationEvent.id).getD ""
    isDecision := analysis.isDecision
    summary := analysis.summary
    confidence := analysis.confidence }

/-- The window loop of detectDecisionsInConversation: per window, analyze,
test the acceptance condition, deduplicate by generateDecisionKey against
the seen-keys set, first occurrence wins. The per-window classifier
behaviour (analyzeWindow after its retries and fallback) is the `analyze`
parameter. -/
def detectLoop (cfg : DecisionDetectionConfig)
    (analyze : SlidingWindow → DecisionAnalysis) :
    List SlidingWindow → List String → List DecisionCandidate
  | [], _ => []
  | w :: ws, seenDecisions =>
    let analysis := analyze w
    if accepts cfg analysis then
      let decisionKey := generateDecisionKey analysis.summary
      if decisionKey ∈ seenDecisions then detectLoop cfg analyze ws seenDecisions
      else createDecisionCandidate analysis w :: detectLoop cfg analyze ws (decisionKey :: seenDecisions)
    else detectLoop cfg analyze ws seenDecisions

/-- DecisionDetectionAgent.detectDecisionsInConversation: windows from
createSlidingWindows, then the detection loop with an empty seen set. -/
def detectDecisionsInConversation (cfg : DecisionDetectionConfig)
    (analyze : SlidingWindow → DecisionAnalysis)
    (conversation : List ConversationEvent) : List DecisionCandidate :=
  detectLoop cfg analyze (createSlidingWindows cfg.slidingWindowSize conversation) []

/-- The accepted candidates of a window list, in window order, before
deduplication. -/
def acceptedCandidates (cfg : DecisionDetectionConfig)
    (analyze : SlidingWindow → DecisionAnalysis)
    (windows : List SlidingWindow) : List DecisionCandidate :=
  (windows.filter fun w => accepts cfg (analyze w)).map
    fun w => createDecisionCandidate (analyze w) w

/-- Generic first-occurrence deduplication by a string key against a seen
set, as the loop's Set<string> logic. -/
def dedupFirst (key : α → String) : List String → List α → List α
  | _, [] => []
  | seen, a :: as =>
    if key a ∈ seen then dedupFirst key seen as
    else a :: dedupFirst key (key a :: seen) as

/-- The deduplication key of a candidate, as computed by the loop from the
accepted analysis summary. -/
def candidateKey (c : DecisionCandidate) : String :=
  generateDecisionKey c.summary

theorem candidateKey_createDecisionCandidate (a : DecisionAnalysis) (w : SlidingWindow) :
    candidateKey (createDecisionCandidate a w) = generateDecisionKey a.summary := rfl

theorem dedupFirst_mem_spec (key : α → String) :
    ∀ (l : List α) (seen : List String) (b : α), b ∈ dedupFirst key seen l →
      key b ∉ seen ∧ l.find? (fun x => key x == key b) = some b := by
  intro l
  induction l with
  | nil => intro seen b hb; simp [dedupFirst] at hb
  | cons a as ih =>
    intro seen b hb
    by_cases ha : key a ∈ seen
    · simp only [dedupFirst, if_pos ha] at hb
      rcases ih seen b hb with ⟨hnot, hfind⟩
      have hne : ¬((fun x => key x == key b) a = true) := by
        simp only [beq_iff_eq]
        intro h; exact hnot (h ▸ ha)
      exact ⟨hnot, (List.find?_cons_of_neg as hne).trans hfind⟩
    · simp only [dedupFirst, if_neg ha, List.mem_cons] at hb
      rcases hb with rfl | hb2
      · exact ⟨ha, List.find?_cons_of_pos as (by simp)⟩
      · rcases ih _ b hb2 with ⟨hnot, hfind⟩
        have hne : ¬((fun x => key x == key b) a = true) := by
          simp only [beq_iff_eq]
          intro h
          exact hnot (by simp [h])
        exact ⟨fun hc => hnot (List.mem_cons_of_mem _ hc),
          (List.find?_cons_of_neg as hne).trans hfind⟩

theorem dedupFirst_keys_nodup (key : α → String) :
    ∀ (l : List α) (seen : List String), ((dedupFirst key seen l).map key).Nodup := by
  intro l
  induction l with
  | nil => intro seen; simp [dedupFirst]
  | cons a as ih =>
    intro seen
    by_cases ha : key a ∈ seen
    · simp only [dedupFirst, if_pos ha]; exact ih seen
    · simp only [dedupFirst, if_neg ha, List.map_cons]
      refine List.nodup_cons.mpr ⟨?_, ih _⟩
      intro hmem
      rcases List.mem_map.mp hmem with ⟨b, hb, hkb⟩
      rcases dedupFirst_mem_spec key as _ b hb with ⟨hnot, _⟩
      exact hnot (by simp [hkb])

theorem dedupFirst_covers (key : α → String) :
    ∀ (l : List α) (seen : List String) (a : α), a ∈ l → key a ∉ seen →
      ∃ b ∈ dedupFirst key seen l, key b = key a := by
  intro l
  induction l with
  | nil => intro seen a ha _; simp at ha
  | cons x xs ih =>
    intro seen a ha hnot
    by_cases hx : key x ∈ seen
    · simp only [dedupFirst, if_pos hx]
      rcases List.mem_cons.mp ha with rfl | ha2
      · exact absurd hx hnot
      · exact ih seen a ha2 hnot
    · simp only [dedupFirst, if_neg hx]
      by_cases hxa : key a = key x
      · exact ⟨x, List.mem_cons_self _ _, hxa.symm⟩
      · rcases List.mem_cons.mp ha with rfl | ha2
        · exact absurd rfl hxa
        · have hnot2 : key a ∉ key x :: seen := by
            intro h
            rcases List.mem_cons.mp h with h1 | h2
            exacts [hxa h1, hnot h2]
          rcases ih _ a ha2 hnot2 with ⟨b, hb, hk⟩
          exact ⟨b, List.mem_cons_of_mem _ hb, hk⟩

theorem detectLoop_eq_dedupFirst (cfg : DecisionDetectionConfig)
    (analyze : SlidingWindow → DecisionAnalysis) :
    ∀ (ws : List SlidingWindow) (seen : List String),
      detectLoop cfg analyze ws seen =
        dedupFirst candidateKey seen (acceptedCandidates cfg analyze ws) := by
  intro ws
  induction ws with
  | nil => intro seen; simp [detectLoop, acceptedCandidates, dedupFirst]
  | cons w ws ih =>
    intro seen
    by_cases hacc : accepts cfg (analyze w) = true
    · by_cases hk : generateDecisionKey (analyze w).summary ∈ seen
      · simp [detectLoop, acceptedCandidates, dedupFirst, hacc, hk, candidateKey,
          createDecisionCandidate, List.filter_cons, ih, acceptedCandidates]
      · simp [detectLoop, acceptedCandidates, dedupFirst, hacc, hk, candidateKey,
          createDecisionCandidate, List.filter_cons, ih, acceptedCandidates]
    · simp [detectLoop, acceptedCandidates, List.filter_cons, hacc, ih]

/-! ## Claim C4: segmentation is a deterministic partition -/

theorem map_messages_createSlidingWindows (W : ℕ) (conversation : List ConversationEvent) :
    (createSlidingWindows W conversation).map SlidingWindow.messages
      = chunkList W (sortStable tsLt conversation) := by
  unfold createSlidingWindows
  rw [List.map_map]
  have h : SlidingWindow.messages ∘ mkWindow W = Prod.snd := by
    funext p; rfl
  rw [h, List.enum_map_snd]

theorem tsLt_asym : ∀ x y : ConversationEvent, tsLt x y = true → tsLt y x = false := by
  intro x y h
  simp only [tsLt, decide_eq_true_eq] at h
  simp only [tsLt, decide_eq_false_iff_not]
  omega

theorem tsLt_total : ∀ x y z : ConversationEvent, tsLt x z = true →
    tsLt x y = true ∨ tsLt y z = true := by
  intro x y z h
  simp only [tsLt, decide_eq_true_eq] at h ⊢
  omega

/-- Claim C4: for a positive window size, segmentation (a pure function,
hence deterministic) partitions the timestamp-sorted messages into
consecutive chronological chunks: the concatenation of the windows is a
permutation of the conversation (no message dropped or duplicated), it is
sorted by ascending timestamp, every window is non-empty with at most W
messages (the trailing partial chunk is emitted), and the window sizes sum
to the message count. -/
theorem createSlidingWindows_partition (W : ℕ) (conversation : List ConversationEvent)
    (hW : 0 < W) :
    (((createSlidingWindows W conversation).map SlidingWindow.messages).flatten).Perm
      conversation ∧
    (((createSlidingWindows W conversation).map SlidingWindow.messages).flatten).Pairwise
      (fun a b => a.timestamp ≤ b.timestamp) ∧
    (∀ w ∈ createSlidingWindows W conversation, w.messages ≠ [] ∧ w.messages.length ≤ W) ∧
    ((createSlidingWindows W conversation).map fun w => w.messages.length).sum
      = conversation.length := by
  have hmap := map_messages_createSlidingWindows W conversation
  have hflat : ((createSlidingWindows W conversation).map SlidingWindow.messages).flatten
      = sortStable tsLt conversation := by
    rw [hmap, chunkList_join hW]
  refine ⟨?_, ?_, ?_, ?_⟩
  · rw [hflat]
    exact perm_sortStable tsLt conversation
  · rw [hflat]
    have hp := pairwise_sortStable tsLt tsLt_asym tsLt_total conversation
    have himp : ∀ a b : ConversationEvent, tsLt b a = false → a.timestamp ≤ b.timestamp := by
      intro a b h
      simp only [tsLt, decide_eq_false_iff_not] at h
      omega
    exact hp.imp fun h => himp _ _ h
  · intro w hw
    have hmem : w.messages ∈ (createSlidingWindows W conversation).map SlidingWindow.messages :=
      List.mem_map_of_mem SlidingWindow.messages hw
    rw [hmap] at hmem
    exact chunkList_mem hW _ _ hmem
  · have h1 : ((createSlidingWindows W conversation).map fun w => w.messages.length)
        = ((createSlidingWindows W conversation).map SlidingWindow.messages).map List.length := by
      rw [List.map_map]
      rfl
    rw [h1, ← List.length_flatten, hflat,
      (perm_sortStable tsLt conversation).length_eq]

/-- A five-message conversation with shuffled timestamps, for the
segmentation witness. -/
def exFiveMessages : List ConversationEvent :=
  [ ⟨"n1", "alice", "message one", 5⟩, ⟨"n2", "bob", "message two", 1⟩,
    ⟨"n3", "carol", "message three", 4⟩, ⟨"n4", "dave", "message four", 2⟩,
    ⟨"n5", "erin", "message five", 3⟩ ]

/-- Witness for C4: five messages at window size 2 yield windows of sizes
2, 2, 1, whose sum the theorem equates with the message count. -/
theorem createSlidingWindows_partition_witness :
    ((createSlidingWindows 2 exFiveMessages).map fun w => w.messages.length) = [2, 2, 1] ∧
    ((createSlidingWindows 2 exFiveMessages).map fun w => w.messages.length).sum
      = exFiveMessages.length :=
  ⟨by decide, (createSlidingWindows_partition 2 exFiveMessages (by decide)).2.2.2⟩

/-! ## Concrete fixtures for the detection claims -/

/-- A two-message example conversation. -/
def exMessages : List ConversationEvent :=
  [ { id := "m1", author := "alice", content := "Should we switch the database?", timestamp := 1 },
    { id := "m2", author := "bob", content := "We decided to adopt Postgres", timestamp := 2 } ]

/-- A classifier behaviour returning a decision at confidence 0.85 for every
window (the spec's exclusion fixture). -/
def analyzeFixture085 : SlidingWindow → DecisionAnalysis := fun w =>
  { isDecision := true, summary := "Adopt Postgres", confidence := mkRat 17 20
    reasoning := "strong implicit", decisionSignals := ["we decided"], context := w.context }

/-- A classifier behaviour returning a decision at confidence 0.95 for every
window. -/
def analyzeFixture095 : SlidingWindow → DecisionAnalysis := fun w =>
  { isDecision := true, summary := "Adopt Postgres", confidence := mkRat 19 20
    reasoning := "explicit", decisionSignals := ["we decided"], context := w.context }

/-- Detection configuration with confidence threshold 0.9. -/
def cfgThreshold09 : DecisionDetectionConfig :=
  { confidenceThreshold := mkRat 9 10, slidingWindowSize := 10 }

/-- Detection configuration with the default confidence threshold 0.7. -/
def cfgThreshold07 : DecisionDetectionConfig :=
  { confidenceThreshold := mkRat 7 10, slidingWindowSize := 10 }

/-- The candidate that detection at threshold 0.7 produces on exMessages
with the 0.95 fixture. -/
def exCandidate095 : DecisionCandidate :=
  { id := "", conversationId := "m1", isDecision := true
    summary := "Adopt Postgres", confidence := mkRat 19 20 }

/-! ## Claims C3 and C8 -/

/-- Claim C3: every candidate output by the detector has isDecision = true
and confidence at least confidenceThreshold, for every conversation and
every classifier behaviour; in particular, at threshold 0.9 a window whose
analysis has confidence 0.85 yields no candidate. -/
theorem detect_threshold_enforced (cfg : DecisionDetectionConfig)
    (analyze : SlidingWindow → DecisionAnalysis) (conversation : List ConversationEvent) :
    (∀ c ∈ detectDecisionsInConversation cfg analyze conversation,
      c.isDecision = true ∧ cfg.confidenceThreshold ≤ c.confidence) ∧
    detectDecisionsInConversation cfgThreshold09 analyzeFixture085 exMessages = [] := by
  constructor
  · intro c hc
    rw [detectDecisionsInConversation, detectLoop_eq_dedupFirst] at hc
    have hfind := (dedupFirst_mem_spec candidateKey _ _ _ hc).2
    have hacc : c ∈ acceptedCandidates cfg analyze
        (createSlidingWindows cfg.slidingWindowSize conversation) :=
      List.mem_of_find?_eq_some hfind
    rcases List.mem_map.mp hacc with ⟨w, hw, hcw⟩
    have hwacc : accepts cfg (analyze w) = true := (List.mem_filter.mp hw).2
    rcases Bool.and_eq_true_iff.mp hwacc with ⟨hdec, hconf⟩
    subst hcw
    exact ⟨hdec, of_decide_eq_true hconf⟩
  · decide

/-- Witness for C3: at threshold 0.7 the 0.95 fixture produces a concrete
candidate, and the theorem applies to it. -/
theorem detect_threshold_enforced_witness :
    exCandidate095 ∈ detectDecisionsInConversation cfgThreshold07 analyzeFixture095 exMessages ∧
    exCandidate095.isDecision = true ∧
    cfgThreshold07.confidenceThreshold ≤ exCandidate095.confidence :=
  ⟨by decide,
    (detect_threshold_enforced cfgThreshold07 analyzeFixture095 exMessages).1
      exCandidate095 (by decide)⟩

/-- Claim C8: within one detection run, candidates are deduplicated by the
normalized key of their summary: output keys are pairwise distinct, every
accepted window's key is represented, and each output candidate is the
first accepted candidate with its key (earliest window wins). -/
theorem detect_dedup_first_occurrence_wins (cfg : DecisionDetectionConfig)
    (analyze : SlidingWindow → DecisionAnalysis) (conversation : List ConversationEvent) :
    ((detectDecisionsInConversation cfg analyze conversation).map candidateKey).Nodup ∧
    (∀ c ∈ acceptedCandidates cfg analyze (createSlidingWindows cfg.slidingWindowSize conversation),
      ∃ d ∈ detectDecisionsInConversation cfg analyze conversation,
        candidateKey d = candidateKey c) ∧
    (∀ d ∈ detectDecisionsInConversation cfg analyze conversation,
      (acceptedCandidates cfg analyze (createSlidingWindows cfg.slidingWindowSize conversation)).find?
        (fun c => candidateKey c == candidateKey d) = some d) := by
  rw [detectDecisionsInConversation, detectLoop_eq_dedupFirst]
  refine ⟨dedupFirst_keys_nodup candidateKey _ _, ?_, ?_⟩
  · intro c hc
    exact dedupFirst_covers candidateKey _ [] c hc (by simp)
  · intro d hd
    exact (dedupFirst_mem_spec candidateKey _ [] d hd).2

/-- Duplicate-summary fixture: both windows would accept, with summaries
normalizing to the same key. -/
def analyzeFixtureDup : SlidingWindow → DecisionAnalysis := fun w =>
  { isDecision := true
    summary := if w.id = "window_0_1" then "Adopt Postgres!" else "adopt postgres"
    confidence := mkRat 19 20
    reasoning := "explicit", decisionSignals := [], context := w.context }

/-- Detection configuration with window size 1, so exMessages yields two
windows. -/
def cfgWindowOne : DecisionDetectionConfig :=
  { confidenceThreshold := mkRat 7 10, slidingWindowSize := 1 }

/-- Witness for C8: two accepted windows whose summaries share a key yield
exactly one candidate, and the theorem's first-occurrence equation holds for
it at this concrete input. -/
theorem detect_dedup_first_occurrence_wins_witness :
    (detectDecisionsInConversation cfgWindowOne analyzeFixtureDup exMessages).length = 1 ∧
    ∀ d ∈ detectDecisionsInConversation cfgWindowOne analyzeFixtureDup exMessages,
      (acceptedCandidates cfgWindowOne analyzeFixtureDup
          (createSlidingWindows cfgWindowOne.slidingWindowSize exMessages)).find?
        (fun c => candidateKey c == candidateKey d) = some d :=
  ⟨by decide,
    (detect_dedup_first_occurrence_wins cfgWindowOne analyzeFixtureDup exMessages).2.2⟩

/-! ## Claim C9: candidate confidence is not clamped to [0,1] -/

/-- A classifier reply that parses as JSON with confidence 1.5. -/
def overconfidentJsonReply : ClassifierReply :=
  .json { isDecision := some true, summary := some "Adopt Postgres"
          confidence := some (mkRat 3 2), reasoning := some "explicit"
          decisionSignals := some [], context := some "" }

/-- Claim C9 (code bug): a JSON classifier reply with confidence 1.5 at the
default threshold 0.7 yields a candidate whose confidence is 1.5, outside
[0,1]; neither parseAnalysisResponse nor the detector's
createDecisionCandidate clamps (the standalone helper
DecisionBriefUtils.createDecisionCandidate does, but the detector never
calls it). -/
theorem detect_confidence_not_clamped :
    ((detectDecisionsInConversation cfgThreshold07
        (fun _ => parseAnalysisResponse overconfidentJsonReply) exMessages).map
      DecisionCandidate.confidence) = [mkRat 3 2] ∧
    ¬ (mkRat 3 2 ≤ (1 : ℚ)) := by decide

/-! ## Brief schema validation and status helpers
(DecisionSchema.ts, DecisionBriefUtils.ts) -/

inductive BriefStatus
  | pending
  | approved
  | archived
deriving Repr, DecidableEq

/-- SourceReference (DecisionSchema): the provenance pointer; the optional
url/author/excerpt/metadata fields, which no claim reads, are omitted. -/
structure SourceReference where
  type : String
  externalId : String
  timestamp : ℤ
deriving Repr, DecidableEq

/-- DecisionBrief (DecisionSchema): the schema-level brief record
(id, workspaceId, userId, decisionCandidateId and the Date fields are
omitted: identifiers and clocks no claim reads). -/
structure SchemaBrief where
  title : String
  problem : String
  optionsConsidered : List String
  rationale : String
  participants : List String
  status : BriefStatus
  confidence : ℚ
  sourceReferences : List SourceReference
  tags : List String
  approvedBy : Option String
deriving Repr, DecidableEq

/-- Partial<DecisionBrief> as consumed by validateDecisionBrief: each
validated field possibly absent. -/
structure PartialDecisionBrief where
  title : Option String
  problem : Option String
  optionsConsidered : Option (List String)
  rationale : Option String
  participants : Option (List String)
  sourceReferences : Option (List SourceReference)
  confidence : Option ℚ
deriving Repr, DecidableEq

/-- The test `!brief.f || brief.f.length === 0` for a string field:
absent or empty. -/
def strFieldMissing (v : Option String) : Bool :=
  match v with
  | none => true
  | some s => s == ""

/-- The test `!brief.f || brief.f.length === 0` for an array field:
absent or empty (arrays are truthy, so the first disjunct only fires on
absence). -/
def listFieldMissing (v : Option (List α)) : Bool :=
  match v with
  | none => true
  | some l => l.isEmpty

/-- validateDecisionBrief (DecisionSchema): collects the schema errors.
Note that the sourceReferences check only fires when the field is present
and empty (`brief.sourceReferences && brief.sourceReferences.length === 0`),
and that the confidence check requires a number within [0,1]. -/
def validateDecisionBrief (brief : PartialDecisionBrief) : Bool × List String :=
  let errors : List String :=
    (if strFieldMissing brief.title then ["title is required"] else []) ++
    (if strFieldMissing brief.problem then ["problem is required"] else []) ++
    (if listFieldMissing brief.optionsConsidered then
        ["optionsConsidered must have at least 1 option"] else []) ++
    (if strFieldMissing brief.rationale then ["rationale is required"] else []) ++
    (if listFieldMissing brief.participants then
        ["participants must include at least 1 person"] else []) ++
    (if (match brief.sourceReferences with
          | some l => l.isEmpty
          | none => false) then
        ["sourceReferences must have at least 1 source"] else []) ++
    (if (match brief.confidence with
          | none => true
          | some q => decide (q < 0 ∨ 1 < q)) then
        ["confidence must be a number between 0 and 1"] else [])
  (errors.isEmpty, errors)

namespace BriefUtils

/-- DecisionBriefUtils.createDecisionCandidate: the standalone candidate
helper; unlike the detector's private one, it clamps confidence with
`Math.max(0, Math.min(1, params.confidence))`. -/
def createDecisionCandidate (conversationId summary : String) (confidence : ℚ)
    (isDecision : Bool) : DecisionCandidate :=
  { id := ""
    conversationId := conversationId
    isDecision := isDecision
    summary := summary
    confidence := max 0 (min 1 confidence) }

/-- DecisionBriefUtils.approveBrief: sets status approved and records the
approver, whatever the current status. -/
def approveBrief (brief : SchemaBrief) (approvedBy : String) : SchemaBrief :=
  { brief with status := .approved, approvedBy := some approvedBy }

/-- DecisionBriefUtils.archiveBrief: sets status archived, whatever the
current status. -/
def archiveBrief (brief : SchemaBrief) : SchemaBrief :=
  { brief with status := .archived }

/-- The updatable fields of DecisionBriefUtils.updateBrief
(Partial<Omit<DecisionBrief, 'id' | 'createdAt'>>), restricted to the
fields this model carries. -/
structure BriefUpdates where
  title : Option String
  problem : Option String
  rationale : Option String
  status : Option BriefStatus
deriving Repr, DecidableEq

/-- The object spread `{ ...brief, ...updates }`. -/
def applyUpdates (brief : SchemaBrief) (updates : BriefUpdates) : SchemaBrief :=
  { brief with
    title := updates.title.getD brief.title
    problem := updates.problem.getD brief.problem
    rationale := updates.rationale.getD brief.rationale
    status := updates.status.getD brief.status }

/-- DecisionBriefUtils.updateBrief: apply the updates, validate the result,
throw (error) on a validation failure. -/
def updateBrief (brief : SchemaBrief) (updates : BriefUpdates) :
    Except (List String) SchemaBrief :=
  let updated := applyUpdates brief updates
  let v := validateDecisionBrief
    { title := some updated.title
      problem := some updated.problem
      optionsConsidered := some updated.optionsConsidered
      rationale := some updated.rationale
      participants := some updated.participants
      sourceReferences := some updated.sourceReferences
      confidence := some updated.confidence }
  if v.1 then .ok updated else .error v.2

end BriefUtils

/-- A schema-valid brief whose status is archived. -/
def exArchivedBrief : SchemaBrief :=
  { title := "Adopt Postgres", problem := "Choose a database"
    optionsConsidered := ["Postgres", "MySQL"], rationale := "Managed offering"
    participants := ["alice"], status := .archived, confidence := mkRat 9 10
    sourceReferences := [⟨"slack", "m2", 2⟩], tags := [], approvedBy := none }

/-- A schema-valid brief whose status is approved. -/
def exApprovedBrief : SchemaBrief :=
  { title := "Adopt Postgres", problem := "Choose a database"
    optionsConsidered := ["Postgres", "MySQL"], rationale := "Managed offering"
    participants := ["alice"], status := .approved, confidence := mkRat 9 10
    sourceReferences := [⟨"slack", "m2", 2⟩], tags := [], approvedBy := some "bob" }

/-- Updates that request a status of pending and change nothing else. -/
def exRePendingUpdates : BriefUtils.BriefUpdates :=
  { title := none, problem := none, rationale := none, status := some .pending }

/-- Counterexample to C10 as stated: approveBrief applied to an archived
brief returns an approved brief (an archived brief does transition to
approved). -/
theorem approveBrief_unarchives :
    exArchivedBrief.status = BriefStatus.archived ∧
    (BriefUtils.approveBrief exArchivedBrief "reviewer").status = BriefStatus.approved :=
  ⟨rfl, rfl⟩

/-- Claim C10 (amended): the status operations are unconditional setters,
with no monotonicity guard: approveBrief always yields status approved and
archiveBrief always status archived, whatever the prior status, and a
successful updateBrief applies whatever status the updates request (subject
only to schema validation). -/
theorem briefStatus_setters_unconditional (brief : SchemaBrief) (approver : String)
    (updates : BriefUtils.BriefUpdates) (updated : SchemaBrief) (st : BriefStatus)
    (hok : BriefUtils.updateBrief brief updates = .ok updated)
    (hst : updates.status = some st) :
    (BriefUtils.approveBrief brief approver).status = BriefStatus.approved ∧
    (BriefUtils.archiveBrief brief).status = BriefStatus.archived ∧
    updated.status = st := by
  refine ⟨rfl, rfl, ?_⟩
  simp only [BriefUtils.updateBrief] at hok
  split at hok
  · have h2 := hok
    simp only [Except.ok.injEq] at h2
    subst h2
    simp [BriefUtils.applyUpdates, hst]
  · simp at hok

/-- Witness for C10: on a concrete approved brief, updateBrief succeeds and
re-pends it, and the theorem applies with its hypotheses discharged. -/
theorem briefStatus_setters_unconditional_witness :
    (BriefUtils.approveBrief exApprovedBrief "reviewer").status = BriefStatus.approved ∧
    (BriefUtils.archiveBrief exApprovedBrief).status = BriefStatus.archived ∧
    (BriefUtils.applyUpdates exApprovedBrief exRePendingUpdates).status = BriefStatus.pending :=
  briefStatus_setters_unconditional exApprovedBrief "reviewer" exRePendingUpdates
    (BriefUtils.applyUpdates exApprovedBrief exRePendingUpdates) BriefStatus.pending
    rfl rfl

/-! ## Retrieval and ranking engine (AdvancedRetrievalService) -/

/-- RetrievalConfig: the fields the retrieve pipeline reads (model name and
citation style feed only the collaborator prompts). -/
structure RetrievalConfig where
  decisionWeight : ℚ
  conversationWeight : ℚ
  decisionThreshold : ℚ
  conversationThreshold : ℚ
  maxResults : ℕ
  enableReranking : Bool
  enableAnswerGeneration : Bool
deriving Repr, DecidableEq

/-- The default configuration built by getInstance from unset environment
variables. -/
def defaultRetrievalConfig : RetrievalConfig :=
  { decisionWeight := mkRat 7 10, conversationWeight := mkRat 3 10
    decisionThreshold := mkRat 2 5, conversationThreshold := mkRat 3 10
    maxResults := 15, enableReranking := false, enableAnswerGeneration := false }

/-- A hit returned by the embedding-search collaborator
(SemanticSearchResult: id, text, score, sourceId; metadata omitted). -/
structure SearchHit where
  id : String
  text : String
  score : ℚ
  sourceId : String
deriving Repr, DecidableEq

/-- An item of the merged result list. combineAndFilterResults builds a
DecisionBrief-shaped record from a decision hit, carrying the hit's score
as its confidence, and a ConversationEvent-shaped record from a
conversation hit, which carries NO confidence field (the hit's score is
dropped); only the fields claims read are modelled. -/
inductive RetrievalItem
  | decision (id : String) (decisionSummary : String) (confidence : ℚ)
  | conversation (id : String) (content : String)
deriving Repr, DecidableEq

/-- The id of a merged item. -/
def RetrievalItem.itemId : RetrievalItem → String
  | .decision i _ _ => i
  | .conversation i _ => i

/-- The value the sort comparator reads:
`'confidence' in item ? item.confidence : 1.0` — a conversation item has no
confidence field, so it compares as 1.0. -/
def comparatorKey : RetrievalItem → ℚ
  | .decision _ _ c => c
  | .conversation _ _ => 1

/-- The comparator `(a, b) => confidenceB - confidenceA`: b stays strictly
before a when b's key exceeds a's. -/
def confGt (x y : RetrievalItem) : Bool :=
  decide (comparatorKey y < comparatorKey x)

/-- AdvancedRetrievalService.combineAndFilterResults: keep decision hits
with score at least the decision threshold (as decision items carrying the
score), keep conversation hits with score at least the conversation
threshold (as conversation items, score dropped), sort the concatenation
descending by comparatorKey (stable), truncate to maxResults. -/
def combineAndFilterResults (cfg : RetrievalConfig)
    (decisionResults conversationResults : List SearchHit) : List RetrievalItem :=
  let ds := (decisionResults.filter fun r => decide (cfg.decisionThreshold ≤ r.score)).map
    fun r => RetrievalItem.decision r.id r.text r.score
  let cs := (conversationResults.filter fun r => decide (cfg.conversationThreshold ≤ r.score)).map
    fun r => RetrievalItem.conversation r.id r.text
  (sortStable confGt (ds ++ cs)).take cfg.maxResults

/-- The forEach of rerankResults that appends the results missing from the
reranked list, skipping ids already present. -/
def addRemaining (reranked : List RetrievalItem) (results : List RetrievalItem) :
    List RetrievalItem :=
  results.foldl
    (fun acc r => if acc.any fun rr => rr.itemId == r.itemId then acc else acc ++ [r])
    reranked

/-- AdvancedRetrievalService.rerankResults: at most one item, or a
transport error, or an unparseable reply (none), keeps the original order;
otherwise take the reranked ids through the id map (a JavaScript Map built
from the results keeps the last entry for a duplicated id, hence the
reversed find) and append the remaining items. Never throws. -/
def rerankResults (reply : Except String (Option (List String)))
    (results : List RetrievalItem) : List RetrievalItem :=
  if results.length ≤ 1 then results
  else
    match reply with
    | .error _ => results
    | .ok none => results
    | .ok (some rerankedIds) =>
      let reranked := rerankedIds.filterMap
        fun i => results.reverse.find? fun r => r.itemId == i
      addRemaining reranked results

inductive RetrievalResultType
  | decision
  | conversation
  | mixed
  | generated
deriving Repr, DecidableEq

/-- RetrievalResult: the fields the claims read (searchMetadata, the answer
text and the citation records are presentation data no claim reads). -/
structure RetrievalResult where
  type : RetrievalResultType
  items : List RetrievalItem
  total : ℕ
  confidence : ℚ
deriving Repr, DecidableEq

/-- AdvancedRetrievalService.determineResultType. -/
def determineResultType (items : List RetrievalItem) : RetrievalResultType :=
  let decisionCount := (items.filter fun i =>
    match i with | .decision _ _ _ => true | .conversation _ _ => false).length
  let conversationCount := (items.filter fun i =>
    match i with | .decision _ _ _ => false | .conversation _ _ => true).length
  if conversationCount < decisionCount then .decision
  else if decisionCount < conversationCount then .conversation
  else if 0 < items.length then .mixed
  else .generated

/-- The value calculateOverallConfidence reads per item:
`'confidence' in item ? item.confidence : 0.5`. -/
def meanConfidenceValue : RetrievalItem → ℚ
  | .decision _ _ c => c
  | .conversation _ _ => mkRat 1 2

/-- AdvancedRetrievalService.calculateOverallConfidence: 0 on an empty
list, else the arithmetic mean. -/
def calculateOverallConfidence (items : List RetrievalItem) : ℚ :=
  if items.length = 0 then 0
  else (items.map meanConfidenceValue).sum / (items.length : ℚ)

/-- The collaborator outcomes one retrieve invocation consumes: the two
search calls (which may throw) and the reranking reply (transport error,
or unparseable (none), or a parsed id list). The answer-generation call
never affects the items and is caught internally, so it is not modelled. -/
structure RetrievalCollaborators where
  decisionSearch : Except String (List SearchHit)
  conversationSearch : Except String (List SearchHit)
  rerankReply : Except String (Option (List String))
deriving Repr

/-- The degraded result returned by retrieve's top-level catch. -/
def emptyRetrievalResult : RetrievalResult :=
  { type := .mixed, items := [], total := 0, confidence := 0 }

/-- The try block of AdvancedRetrievalService.retrieve: search decisions,
search conversations, combine and filter, optionally rerank, then assemble
the result. An error is a thrown stage exception. -/
def retrieveBody (cfg : RetrievalConfig) (env : RetrievalCollaborators) :
    Except String RetrievalResult := do
  let decisionResults ← env.decisionSearch
  let conversationResults ← env.conversationSearch
  let combined := combineAndFilterResults cfg decisionResults conversationResults
  let finalResults :=
    if cfg.enableReranking ∧ 0 < combined.length then rerankResults env.rerankReply combined
    else combined
  pure
    { type := determineResultType finalResults
      items := finalResults
      total := finalResults.length
      confidence := calculateOverallConfidence finalResults }

/-- AdvancedRetrievalService.retrieve: the try block with the top-level
catch converting any stage exception into the empty zero-confidence
result. -/
def retrieve (cfg : RetrievalConfig) (env : RetrievalCollaborators) : RetrievalResult :=
  match retrieveBody cfg env with
  | .ok r => r
  | .error _ => emptyRetrievalResult

/-! ## Claim C7: retrieval degrades instead of raising -/

/-- Claim C7: retrieve never raises (it is a total function into
RetrievalResult); whenever a stage of its try block throws, it returns the
empty result with no items, total 0 and confidence 0. -/
theorem retrieve_degrades_on_failure (cfg : RetrievalConfig)
    (env : RetrievalCollaborators) (e : String)
    (h : retrieveBody cfg env = .error e) :
    (retrieve cfg env).items = [] ∧ (retrieve cfg env).total = 0 ∧
    (retrieve cfg env).confidence = 0 := by
  simp [retrieve, h, emptyRetrievalResult]

/-- Collaborators whose decision search throws. -/
def failingCollaborators : RetrievalCollaborators :=
  { decisionSearch := .error "search failed"
    conversationSearch := .ok []
    rerankReply := .ok none }

/-- Witness for C7: with a throwing decision search, retrieve returns the
empty zero-confidence result. -/
theorem retrieve_degrades_on_failure_witness :
    (retrieve defaultRetrievalConfig failingCollaborators).items = [] ∧
    (retrieve defaultRetrievalConfig failingCollaborators).total = 0 ∧
    (retrieve defaultRetrievalConfig failingCollaborators).confidence = 0 :=
  retrieve_degrades_on_failure defaultRetrievalConfig failingCollaborators
    "search failed" rfl

/-! ## Claim C1: the merge orders by comparator key, not by search score -/

/-- The decision hits of the spec's merge example, scores 0.9 and 0.5. -/
def exDecisionHits : List SearchHit :=
  [ { id := "d1", text := "Use Postgres", score := mkRat 9 10, sourceId := "s1" },
    { id := "d2", text := "Use Redis for caching", score := mkRat 1 2, sourceId := "s2" } ]

/-- The conversation hits of the spec's merge example, scores 0.6 and 0.2. -/
def exConversationHits : List SearchHit :=
  [ { id := "c1", text := "We compared databases", score := mkRat 3 5, sourceId := "s3" },
    { id := "c2", text := "Lunch plans", score := mkRat 1 5, sourceId := "s4" } ]

/-- Counterexample to C1 as stated: on the spec's example the merged list is
not ordered 0.9, 0.6, 0.5 by search score; the conversation hit (score 0.6,
comparing as 1.0) comes first: ids c1, d1, d2 rather than d1, c1, d2. -/
theorem combine_example_not_score_sorted :
    ((combineAndFilterResults defaultRetrievalConfig exDecisionHits exConversationHits).map
      RetrievalItem.itemId) = ["c1", "d1", "d2"] ∧
    (["c1", "d1", "d2"] : List String) ≠ ["d1", "c1", "d2"] := by decide

/-- Claim C1 (amended): combineAndFilterResults keeps only decision hits
with score at least the decision threshold and conversation hits with score
at least the conversation threshold, merges them, sorts descending by the
comparator key — the item's confidence for decision items and 1.0 for
conversation items, which carry no confidence field — and truncates to
maxResults; hence conversation hits precede every decision hit of score
below 1, and the spec's example yields ids c1 (0.6), d1 (0.9), d2 (0.5),
with the 0.2 hit excluded. -/
theorem combineAndFilterResults_spec (cfg : RetrievalConfig)
    (decisionResults conversationResults : List SearchHit) :
    (∃ s : List RetrievalItem,
      combineAndFilterResults cfg decisionResults conversationResults
          = s.take cfg.maxResults ∧
      List.Perm s
        (((decisionResults.filter fun r => decide (cfg.decisionThreshold ≤ r.score)).map
            fun r => RetrievalItem.decision r.id r.text r.score) ++
          ((conversationResults.filter fun r => decide (cfg.conversationThreshold ≤ r.score)).map
            fun r => RetrievalItem.conversation r.id r.text)) ∧
      s.Pairwise fun a b => comparatorKey b ≤ comparatorKey a) ∧
    ((combineAndFilterResults defaultRetrievalConfig exDecisionHits exConversationHits).map
      RetrievalItem.itemId) = ["c1", "d1", "d2"] := by
  constructor
  · refine ⟨sortStable confGt _, rfl, perm_sortStable confGt _, ?_⟩
    have hasym : ∀ x y : RetrievalItem, confGt x y = true → confGt y x = false := by
      intro x y h
      simp only [confGt, decide_eq_true_eq] at h
      simp only [confGt, decide_eq_false_iff_not]
      exact not_lt.mpr h.le
    have htot : ∀ x y z : RetrievalItem, confGt x z = true →
        confGt x y = true ∨ confGt y z = true := by
      intro x y z h
      simp only [confGt, decide_eq_true_eq] at h ⊢
      rcases lt_or_le (comparatorKey y) (comparatorKey x) with h1 | h1
      · exact Or.inl h1
      · exact Or.inr (lt_of_lt_of_le h h1)
    have hp := pairwise_sortStable confGt hasym htot
      (((decisionResults.filter fun r => decide (cfg.decisionThreshold ≤ r.score)).map
          fun r => RetrievalItem.decision r.id r.text r.score) ++
        ((conversationResults.filter fun r => decide (cfg.conversationThreshold ≤ r.score)).map
          fun r => RetrievalItem.conversation r.id r.text))
    refine hp.imp fun h => ?_
    simp only [confGt, decide_eq_false_iff_not] at h
    exact not_lt.mp h
  · decide

/-! ## Context extraction and brief synthesis data
(ContextExtractionAgent.ts, RationaleGenerationAgent.ts) -/

/-- ContextEvidence: an evidence item (timestamp and metadata omitted:
clock values and maps no claim reads). -/
structure ContextEvidence where
  id : String
  type : String
  sourceId : String
  content : String
  relevance : ℚ
deriving Repr, DecidableEq

/-- ExtractedContext: the intermediate artifact between the context
extraction stage and the rationale generation stage (extractedAt omitted:
a clock value). -/
structure ExtractedContext where
  decisionId : String
  problemStatement : String
  constraints : List String
  alternativesConsidered : List String
  stakeholders : List String
  evidence : List ContextEvidence
  relatedDecisions : List String
  confidence : ℚ
deriving Repr, DecidableEq

/-- A source reference as produced inside the generated rationale JSON
(only presence and count are read by any claim). -/
structure SourceRefJson where
  type : String
  messageId : String
deriving Repr, DecidableEq

/-- The parsed rationale JSON object, each field possibly absent. -/
structure RationaleJson where
  decisionSummary : Option String
  problem : Option String
  optionsConsidered : Option (List String)
  rationale : Option String
  participants : Option (List String)
  sourceReferences : Option (List SourceRefJson)
  confidence : Option ℚ
  status : Option String
  tags : Option (List String)
deriving Repr, DecidableEq

/-- A language-model reply to the rationale generator, at the parse-outcome
level. -/
inductive RationaleReply
  | parsed (fields : RationaleJson)
  | unparseable
deriving Repr, DecidableEq

/-- The fixed object parseRationaleResponse returns when JSON.parse
throws. -/
def fallbackParsedRationale : RationaleJson :=
  { decisionSummary := some "Decision rationale generated"
    problem := some "Problem not specified"
    optionsConsidered := some []
    rationale := some "Rationale generated from text response"
    participants := some []
    sourceReferences := some []
    confidence := some (mkRat 1 2)
    status := some "pending"
    tags := some [] }

/-- RationaleGenerationAgent.parseRationaleResponse: JSON.parse, or the
fixed fallback object on a parse failure. -/
def parseRationaleResponse : RationaleReply → RationaleJson
  | .parsed fields => fields
  | .unparseable => fallbackParsedRationale

/-- RationaleGenerationConfig: the fields the generation loop reads (model
name and maxCitations feed only the prompts). -/
structure RationaleGenerationConfig where
  citationThreshold : ℚ
  hallucinationCheckEnabled : Bool
  enableRepair : Bool
  validationAttempts : ℕ
deriving Repr, DecidableEq

/-- The collaborator behaviour one synthesis run consumes: the n-th
language-model call's outcome (a transport error or a reply), and the
outcome of checkForHallucinations' length test
`JSON.stringify(rationale).length > contextText.length * 3` (string
serialization lengths are not otherwise modelled; the flag is the test's
value, carried as a function of the compared values). -/
structure SynthesisEnv where
  llm : ℕ → Except String RationaleReply
  hallucinationLengthFlag : RationaleJson → ExtractedContext → Bool

/-- RationaleValidation: the validation record of one draft. -/
structure RationaleValidation where
  valid : Bool
  errors : List String
  hallucinations : List String
  missingCitations : List String
  confidence : ℚ
deriving Repr, DecidableEq

/-- RationaleGenerationAgent.checkForHallucinations: the single
length-ratio heuristic. -/
def checkForHallucinations (env : SynthesisEnv) (rationale : RationaleJson)
    (context : ExtractedContext) : List String :=
  if env.hallucinationLengthFlag rationale context then
    ["Rationale appears to contain excessive information not in context"]
  else []

/-- Truthiness of `rationale.rationale` (a present, non-empty string). -/
def rationaleFieldTruthy (v : Option String) : Bool :=
  match v with
  | none => false
  | some s => !(s == "")

/-- RationaleGenerationAgent.checkCitations: flag a truthy rationale whose
sourceReferences field is absent (`rationale.rationale &&
!rationale.sourceReferences`), and a present-but-empty sourceReferences
array (`rationale.sourceReferences && rationale.sourceReferences.length
=== 0`; an empty array is truthy). -/
def checkCitations (rationale : RationaleJson) : List String :=
  (if rationaleFieldTruthy rationale.rationale ∧ rationale.sourceReferences = none then
      ["Rationale lacks source references"]
    else []) ++
  (if rationale.sourceReferences = some [] then ["No source references provided"] else [])

/-- RationaleGenerationAgent.validateRationale: with the hallucination
check disabled, immediately valid with confidence `rationale.confidence ||
0.5`; otherwise run the two heuristics, multiply the confidence by 0.5 per
hallucination flag and 0.8 per citation flag, and be valid exactly when no
error fired and the confidence reaches citationThreshold. No schema field
of the draft is inspected beyond these checks. -/
def validateRationale (env : SynthesisEnv) (cfg : RationaleGenerationConfig)
    (rationale : RationaleJson) (context : ExtractedContext) : RationaleValidation :=
  if cfg.hallucinationCheckEnabled = false then
    { valid := true, errors := [], hallucinations := [], missingCitations := []
      confidence := jsNumOr rationale.confidence (mkRat 1 2) }
  else
    let hallucinations := checkForHallucinations env rationale context
    let missingCitations := checkCitations rationale
    let errors :=
      (if hallucinations.isEmpty then [] else ["Hallucinations detected in rationale"]) ++
      (if missingCitations.isEmpty then [] else ["Missing citations for factual claims"])
    let conf0 := jsNumOr rationale.confidence (mkRat 1 2)
    let conf1 := if hallucinations.isEmpty then conf0 else conf0 * mkRat 1 2
    let conf2 := if missingCitations.isEmpty then conf1 else conf1 * mkRat 4 5
    { valid := errors.isEmpty && decide (cfg.citationThreshold ≤ conf2)
      errors := errors
      hallucinations := hallucinations
      missingCitations := missingCitations
      confidence := conf2 }

/-- The fallback rationale generateInitialRationale returns when the
language-model call throws. -/
def initialFallbackRationale (decision : DecisionCandidate)
    (context : ExtractedContext) : RationaleJson :=
  { decisionSummary := some decision.summary
    problem := some (if context.problemStatement = "" then "Problem not specified"
      else context.problemStatement)
    optionsConsidered := some context.alternativesConsidered
    rationale := some "Decision rationale generated with limited context"
    participants := some context.stakeholders
    sourceReferences := some []
    confidence := some (mkRat 1 2)
    status := some "pending"
    tags := some [] }

/-- RationaleGenerationAgent.generateInitialRationale: one language-model
call (call number callIdx), parsed; its own fallback on a transport
error. -/
def generateInitialRationale (env : SynthesisEnv) (callIdx : ℕ)
    (decision : DecisionCandidate) (context : ExtractedContext) : RationaleJson :=
  match env.llm callIdx with
  | .ok reply => parseRationaleResponse reply
  | .error _ => initialFallbackRationale decision context

/-- RationaleGenerationAgent.repairRationale: one language-model call,
parsed; the original rationale on a transport error. -/
def repairRationale (env : SynthesisEnv) (callIdx : ℕ)
    (rationale : RationaleJson) : RationaleJson :=
  match env.llm callIdx with
  | .ok reply => parseRationaleResponse reply
  | .error _ => rationale

/-- DecisionBrief (models/DecisionBrief) as built by the rationale agent:
decisionSummary plays the title role (id, decisionCandidateId, userId and
the Date fields are omitted: identifiers and clocks no claim reads). -/
structure AgentDecisionBrief where
  decisionSummary : String
  problem : String
  optionsConsidered : List String
  rationale : String
  participants : List String
  sourceReferences : List SourceRefJson
  confidence : ℚ
  status : String
  tags : List String
deriving Repr, DecidableEq

/-- RationaleGenerationAgent.buildDecisionBrief: every field defaults by
JavaScript truthiness; the brief's confidence is the validation's. -/
def buildDecisionBrief (decision : DecisionCandidate) (rationale : RationaleJson)
    (validation : RationaleValidation) : AgentDecisionBrief :=
  { decisionSummary := jsStrOr rationale.decisionSummary decision.summary
    problem := jsStrOr rationale.problem "Problem not specified"
    optionsConsidered := rationale.optionsConsidered.getD []
    rationale := jsStrOr rationale.rationale "Rationale not available"
    participants := rationale.participants.getD []
    sourceReferences := rationale.sourceReferences.getD []
    confidence := validation.confidence
    status := jsStrOr rationale.status "pending"
    tags := rationale.tags.getD [] }

/-- The result of one synthesis run: the built brief and the final
validation (citations and the elapsed time are not modelled: the citation
list is presentation data no claim reads, and wall-clock time is not
representable). -/
structure RationaleGenerationResult where
  brief : AgentDecisionBrief
  validation : RationaleValidation
deriving Repr, DecidableEq

/-- The while loop of generateRationale:
`while (enableRepair && !validation.valid && repairAttempts <
validationAttempts)`, with fuel the remaining attempts and nextCall the
index of the next language-model call; returns the final rationale and
validation together with the total number of calls issued so far. -/
def repairLoop (env : SynthesisEnv) (cfg : RationaleGenerationConfig)
    (context : ExtractedContext) :
    ℕ → ℕ → RationaleJson → RationaleValidation →
      RationaleJson × RationaleValidation × ℕ
  | 0, nextCall, rationale, validation => (rationale, validation, nextCall)
  | fuel + 1, nextCall, rationale, validation =>
    if cfg.enableRepair ∧ validation.valid = false then
      let repaired := repairRationale env nextCall rationale
      let revalidated := validateRationale env cfg repaired context
      repairLoop env cfg context fuel (nextCall + 1) repaired revalidated
    else (rationale, validation, nextCall)

/-- RationaleGenerationAgent.generateRationale: initial call, validate,
repair loop, build the brief. The second component is the total number of
language-model calls issued. -/
def generateRationale (env : SynthesisEnv) (cfg : RationaleGenerationConfig)
    (decision : DecisionCandidate) (context : ExtractedContext) :
    RationaleGenerationResult × ℕ :=
  let r0 := generateInitialRationale env 0 decision context
  let v0 := validateRationale env cfg r0 context
  let final := repairLoop env cfg context cfg.validationAttempts 1 r0 v0
  ({ brief := buildDecisionBrief decision final.1 final.2.1
     validation := final.2.1 }, final.2.2)

/-! ## Lemmas on the synthesis run -/

theorem repairLoop_calls_le (env : SynthesisEnv) (cfg : RationaleGenerationConfig)
    (context : ExtractedContext) :
    ∀ (fuel nextCall : ℕ) (r : RationaleJson) (v : RationaleValidation),
      (repairLoop env cfg context fuel nextCall r v).2.2 ≤ nextCall + fuel := by
  intro fuel
  induction fuel with
  | zero =>
    intro n r v
    simp [repairLoop]
  | succ k ih =>
    intro n r v
    by_cases hc : cfg.enableRepair = true ∧ v.valid = false
    · simp only [repairLoop, if_pos hc]
      have := ih (n + 1) (repairRationale env n r)
        (validateRationale env cfg (repairRationale env n r) context)
      omega
    · simp only [repairLoop, if_neg hc]
      omega

theorem repairLoop_unparseable (env : SynthesisEnv) (cfg : RationaleGenerationConfig)
    (context : ExtractedContext) (hllm : ∀ n, env.llm n = .ok .unparseable) :
    ∀ (fuel nextCall : ℕ),
      (repairLoop env cfg context fuel nextCall fallbackParsedRationale
          (validateRationale env cfg fallbackParsedRationale context)).1
        = fallbackParsedRationale ∧
      (repairLoop env cfg context fuel nextCall fallbackParsedRationale
          (validateRationale env cfg fallbackParsedRationale context)).2.1
        = validateRationale env cfg fallbackParsedRationale context := by
  intro fuel
  induction fuel with
  | zero =>
    intro n
    simp [repairLoop]
  | succ k ih =>
    intro n
    by_cases hc : cfg.enableRepair = true ∧
        (validateRationale env cfg fallbackParsedRationale context).valid = false
    · simp only [repairLoop, if_pos hc, repairRationale, hllm n, parseRationaleResponse]
      exact ih (n + 1)
    · simp [repairLoop, if_neg hc]

theorem validate_fallback_invalid (env : SynthesisEnv) (cfg : RationaleGenerationConfig)
    (context : ExtractedContext) (hcheck : cfg.hallucinationCheckEnabled = true) :
    (validateRationale env cfg fallbackParsedRationale context).valid = false ∧
    0 ≤ (validateRationale env cfg fallbackParsedRationale context).confidence ∧
    (validateRationale env cfg fallbackParsedRationale context).confidence ≤ 1 := by
  have hcit : checkCitations fallbackParsedRationale = ["No source references provided"] := by
    decide
  have hconf : jsNumOr fallbackParsedRationale.confidence (mkRat 1 2) = mkRat 1 2 := by
    decide
  rcases hh : checkForHallucinations env fallbackParsedRationale context with _ | ⟨msg, rest⟩
  · refine ⟨?_, ?_, ?_⟩ <;>
      simp [validateRationale, hcheck, hh, hcit, hconf] <;> decide
  · have hrest : rest = [] := by
      by_cases hf : env.hallucinationLengthFlag fallbackParsedRationale context = true <;>
        simp [checkForHallucinations, hf] at hh <;> simp [hh.2]
    subst hrest
    refine ⟨?_, ?_, ?_⟩ <;>
      simp [validateRationale, hcheck, hh, hcit, hconf] <;> decide

theorem buildDecisionBrief_text_fields (decision : DecisionCandidate)
    (r : RationaleJson) (v : RationaleValidation) :
    (buildDecisionBrief decision r v).problem ≠ "" ∧
    (buildDecisionBrief decision r v).rationale ≠ "" ∧
    (decision.summary ≠ "" → (buildDecisionBrief decision r v).decisionSummary ≠ "") :=
  ⟨jsStrOr_ne_empty _ _ (by decide), jsStrOr_ne_empty _ _ (by decide),
    fun hs => jsStrOr_ne_empty _ _ hs⟩

/-! ## Concrete fixtures for the synthesis claims -/

/-- A language model that always returns unparseable (invalid JSON) text,
with the hallucination length test reading false. -/
def alwaysUnparseableEnv : SynthesisEnv :=
  { llm := fun _ => .ok .unparseable
    hallucinationLengthFlag := fun _ _ => false }

/-- The generation configuration built by getInstance from unset
environment variables: validation and repair disabled, threshold 0.7,
3 attempts. -/
def defaultRationaleConfig : RationaleGenerationConfig :=
  { citationThreshold := mkRat 7 10, hallucinationCheckEnabled := false
    enableRepair := false, validationAttempts := 3 }

/-- The generation configuration with validation and repair enabled. -/
def repairEnabledConfig : RationaleGenerationConfig :=
  { citationThreshold := mkRat 7 10, hallucinationCheckEnabled := true
    enableRepair := true, validationAttempts := 3 }

/-- A concrete decision candidate entering synthesis. -/
def exSynthDecision : DecisionCandidate :=
  { id := "dec1", conversationId := "conv1", isDecision := true
    summary := "Adopt Postgres", confidence := mkRat 9 10 }

/-- A concrete extracted context for synthesis. -/
def exSynthContext : ExtractedContext :=
  { decisionId := "dec1", problemStatement := "Choose a database"
    constraints := [], alternativesConsidered := [], stakeholders := []
    evidence := [], relatedDecisions := [], confidence := mkRat 1 2 }

/-! ## Claims C2 and C5 -/

/-- Counterexample to C2 as stated: under the default configuration
(hallucination check disabled) an unparseable reply yields a result whose
validation says valid = true while the brief has no participants, no
options and no source references — schema invariants of the data model are
violated by a brief marked valid. -/
theorem synth_marks_valid_without_schema_invariants :
    (generateRationale alwaysUnparseableEnv defaultRationaleConfig exSynthDecision
        exSynthContext).1.validation.valid = true ∧
    (generateRationale alwaysUnparseableEnv defaultRationaleConfig exSynthDecision
        exSynthContext).1.brief.participants = [] ∧
    (generateRationale alwaysUnparseableEnv defaultRationaleConfig exSynthDecision
        exSynthContext).1.brief.optionsConsidered = [] ∧
    (generateRationale alwaysUnparseableEnv defaultRationaleConfig exSynthDecision
        exSynthContext).1.brief.sourceReferences = [] := by decide

/-- Claim C2 (amended): when the synthesizer returns a result with
validation.valid = true, the brief's problem and rationale are non-empty
(the builder's defaults guarantee that much), and its title field is
non-empty whenever the candidate summary is; no other schema invariant is
implied — validateRationale checks only the hallucination and citation
heuristics, never the schema fields. -/
theorem synth_valid_brief_guarantees (env : SynthesisEnv)
    (cfg : RationaleGenerationConfig) (decision : DecisionCandidate)
    (context : ExtractedContext)
    (hvalid : (generateRationale env cfg decision context).1.validation.valid = true) :
    (generateRationale env cfg decision context).1.brief.problem ≠ "" ∧
    (generateRationale env cfg decision context).1.brief.rationale ≠ "" ∧
    (decision.summary ≠ "" →
      (generateRationale env cfg decision context).1.brief.decisionSummary ≠ "") :=
  buildDecisionBrief_text_fields decision _ _

/-- Witness for C2: a run whose validation is valid = true, to which the
theorem applies. -/
theorem synth_valid_brief_guarantees_witness :
    (generateRationale alwaysUnparseableEnv defaultRationaleConfig exSynthDecision
        exSynthContext).1.brief.problem ≠ "" ∧
    (generateRationale alwaysUnparseableEnv defaultRationaleConfig exSynthDecision
        exSynthContext).1.brief.rationale ≠ "" ∧
    (exSynthDecision.summary ≠ "" →
      (generateRationale alwaysUnparseableEnv defaultRationaleConfig exSynthDecision
        exSynthContext).1.brief.decisionSummary ≠ "") :=
  synth_valid_brief_guarantees alwaysUnparseableEnv defaultRationaleConfig
    exSynthDecision exSynthContext (by decide)

/-- Counterexample to C5 as stated: with validation and repair enabled and
an always-unparseable model, the run is flagged invalid and exhausts the
attempt budget, but the returned brief also has empty participants and
empty optionsConsidered — it violates more §3 invariants than just the
source-reference requirement. -/
theorem synth_unparseable_counterexample :
    (generateRationale alwaysUnparseableEnv repairEnabledConfig exSynthDecision
        exSynthContext).1.validation.valid = false ∧
    (generateRationale alwaysUnparseableEnv repairEnabledConfig exSynthDecision
        exSynthContext).1.brief.participants = [] ∧
    (generateRationale alwaysUnparseableEnv repairEnabledConfig exSynthDecision
        exSynthContext).1.brief.optionsConsidered = [] ∧
    (generateRationale alwaysUnparseableEnv repairEnabledConfig exSynthDecision
        exSynthContext).2 = repairEnabledConfig.validationAttempts + 1 := by decide

/-- Claim C5 (amended): if the language model always returns invalid JSON,
one synthesis run issues at most validationAttempts + 1 language-model
calls; when the hallucination/citation validation is enabled the result is
explicitly flagged invalid and the returned brief has non-empty title,
problem and rationale and confidence within [0,1], but empty
optionsConsidered, participants and sourceReferences (when the validation
is disabled the run is instead marked valid after a single call). -/
theorem synth_unparseable_run (env : SynthesisEnv) (cfg : RationaleGenerationConfig)
    (decision : DecisionCandidate) (context : ExtractedContext)
    (hllm : ∀ n, env.llm n = .ok .unparseable) :
    (generateRationale env cfg decision context).2 ≤ cfg.validationAttempts + 1 ∧
    (cfg.hallucinationCheckEnabled = true →
      (generateRationale env cfg decision context).1.validation.valid = false ∧
      (generateRationale env cfg decision context).1.brief.decisionSummary ≠ "" ∧
      (generateRationale env cfg decision context).1.brief.problem ≠ "" ∧
      (generateRationale env cfg decision context).1.brief.rationale ≠ "" ∧
      0 ≤ (generateRationale env cfg decision context).1.brief.confidence ∧
      (generateRationale env cfg decision context).1.brief.confidence ≤ 1 ∧
      (generateRationale env cfg decision context).1.brief.optionsConsidered = [] ∧
      (generateRationale env cfg decision context).1.brief.participants = [] ∧
      (generateRationale env cfg decision context).1.brief.sourceReferences = []) := by
  have hr0 : generateInitialRationale env 0 decision context = fallbackParsedRationale := by
    simp [generateInitialRationale, hllm 0, parseRationaleResponse]
  constructor
  · show (generateRationale env cfg decision context).2 ≤ cfg.validationAttempts + 1
    unfold generateRationale
    simp only [hr0]
    have := repairLoop_calls_le env cfg context cfg.validationAttempts 1
      fallbackParsedRationale (validateRationale env cfg fallbackParsedRationale context)
    omega
  · intro hcheck
    unfold generateRationale
    simp only [hr0]
    obtain ⟨hfst, hsnd⟩ := repairLoop_unparseable env cfg context hllm
      cfg.validationAttempts 1
    rw [hfst, hsnd]
    obtain ⟨hvalid, hlo, hhi⟩ := validate_fallback_invalid env cfg context hcheck
    exact ⟨hvalid,
      jsStrOr_some_ne_empty "Decision rationale generated" decision.summary (by decide),
      jsStrOr_some_ne_empty "Problem not specified" "Problem not specified" (by decide),
      jsStrOr_some_ne_empty "Rationale generated from text response" "Rationale not available"
        (by decide),
      hlo, hhi, rfl, rfl, rfl⟩

/-- Witness for C5: the always-unparseable model with the repair-enabled
configuration, to which the theorem applies. -/
theorem synth_unparseable_run_witness :
    (generateRationale alwaysUnparseableEnv repairEnabledConfig exSynthDecision
        exSynthContext).2 ≤ repairEnabledConfig.validationAttempts + 1 ∧
    (generateRationale alwaysUnparseableEnv repairEnabledConfig exSynthDecision
        exSynthContext).1.validation.valid = false :=
  ⟨(synth_unparseable_run alwaysUnparseableEnv repairEnabledConfig exSynthDecision
      exSynthContext fun _ => rfl).1,
    ((synth_unparseable_run alwaysUnparseableEnv repairEnabledConfig exSynthDecision
      exSynthContext fun _ => rfl).2 rfl).1⟩

/-! ## Stage A context extraction (ContextExtractionAgent) -/

/-- One evidence entry of the parsed context JSON, each field possibly
absent. -/
structure ContextJsonEvidence where
  id : Option String
  type : Option String
  sourceId : Option String
  content : Option String
  relevance : Option ℚ
deriving Repr, DecidableEq

/-- The parsed context JSON object, each field possibly absent. -/
structure ContextJson where
  problemStatement : Option String
  constraints : Option (List String)
  alternativesConsidered : Option (List String)
  stakeholders : Option (List String)
  evidence : Option (List ContextJsonEvidence)
  relatedDecisions : Option (List String)
  confidence : Option ℚ
deriving Repr, DecidableEq

/-- A language-model reply to the context extractor, at the parse-outcome
level. -/
inductive ContextReply
  | parsed (fields : ContextJson)
  | unparseable
deriving Repr, DecidableEq

/-- The evidence mapping of the parsed branch (`e.id ||
crypto.randomUUID()` is modelled with a fixed placeholder for the random
id; the fresh Date timestamp and the metadata map are omitted). -/
def mapContextEvidence (e : ContextJsonEvidence) : ContextEvidence :=
  { id := jsStrOr e.id "urn-fresh-uuid"
    type := jsStrOr e.type "conversation"
    sourceId := jsStrOr e.sourceId ""
    content := jsStrOr e.content ""
    relevance := jsNumOr e.relevance 0 }

/-- ContextExtractionAgent.parseContextResponse: on a successful
JSON.parse, the field-by-field context with truthiness defaults; on a parse
failure the catch block reads `decision.summary`, a name that is not in
scope in this method (its parameters are the response and the decision id),
so the catch block itself throws — modelled as the error case. -/
def parseContextResponse (reply : ContextReply) (decisionId : String) :
    Except String ExtractedContext :=
  match reply with
  | .parsed fields =>
    .ok
      { decisionId := decisionId
        problemStatement := jsStrOr fields.problemStatement ""
        constraints := fields.constraints.getD []
        alternativesConsidered := fields.alternativesConsidered.getD []
        stakeholders := fields.stakeholders.getD []
        evidence := (fields.evidence.getD []).map mapContextEvidence
        relatedDecisions := fields.relatedDecisions.getD []
        confidence := jsNumOr fields.confidence (mkRat 1 2) }
  | .unparseable => .error "ReferenceError: decision is not defined"

/-- The degraded context of extractStructuredContext's catch block: the
candidate summary as problem statement, empty collections, confidence
0.5. -/
def degradedContext (decision : DecisionCandidate) : ExtractedContext :=
  { decisionId := decision.id
    problemStatement := decision.summary
    constraints := []
    alternativesConsidered := []
    stakeholders := []
    evidence := []
    relatedDecisions := []
    confidence := mkRat 1 2 }

/-- ContextExtractionAgent.extractStructuredContext: one language-model
call, parsed; any exception of the call or of the parse (including the
out-of-scope reference thrown by parseContextResponse's own catch block) is
caught here and produces the degraded context — the stage itself never
throws, being a total function into ExtractedContext. -/
def extractStructuredContext (decision : DecisionCandidate)
    (llmOutcome : Except String ContextReply) : ExtractedContext :=
  match llmOutcome with
  | .error _ => degradedContext decision
  | .ok reply =>
    match parseContextResponse reply decision.id with
    | .ok context => context
    | .error _ => degradedContext decision

/-! ## Claim C6 -/

/-- Claim C6: for every language-model reply that fails to parse as JSON,
stage A returns the degraded context — problem statement equal to the
candidate summary, all collections empty, confidence 0.5 — and no exception
escapes the stage (extractStructuredContext is total; the exception thrown
inside parseContextResponse's catch block is caught by the stage's own
catch). -/
theorem contextStage_degrades_on_parse_failure (decision : DecisionCandidate)
    (llmOutcome : Except String ContextReply)
    (h : llmOutcome = .ok .unparseable) :
    (extractStructuredContext decision llmOutcome).problemStatement = decision.summary ∧
    (extractStructuredContext decision llmOutcome).constraints = [] ∧
    (extractStructuredContext decision llmOutcome).alternativesConsidered = [] ∧
    (extractStructuredContext decision llmOutcome).stakeholders = [] ∧
    (extractStructuredContext decision llmOutcome).evidence = [] ∧
    (extractStructuredContext decision llmOutcome).relatedDecisions = [] ∧
    (extractStructuredContext decision llmOutcome).confidence = mkRat 1 2 := by
  subst h
  simp [extractStructuredContext, parseContextResponse, degradedContext]

/-- Witness for C6: a concrete unparseable reply, to which the theorem
applies. -/
theorem contextStage_degrades_on_parse_failure_witness :
    (extractStructuredContext exSynthDecision (.ok .unparseable)).problemStatement
      = exSynthDecision.summary ∧
    (extractStructuredContext exSynthDecision (.ok .unparseable)).constraints = [] ∧
    (extractStructuredContext exSynthDecision (.ok .unparseable)).alternativesConsidered = [] ∧
    (extractStructuredContext exSynthDecision (.ok .unparseable)).stakeholders = [] ∧
    (extractStructuredContext exSynthDecision (.ok .unparseable)).evidence = [] ∧
    (extractStructuredContext exSynthDecision (.ok .unparseable)).relatedDecisions = [] ∧
    (extractStructuredContext exSynthDecision (.ok .unparseable)).confidence = mkRat 1 2 :=
  contextStage_degrades_on_parse_failure exSynthDecision (.ok .unparseable) rfl

end KnowWhy
